import Mathlib

/-!
Verification development for the SAM segmentation backend (`backend/app.py`).

The service keeps a session store mapping session ids to a cached predictor
and image metadata, and exposes `auth`, `session/start`, `segment` and
`session/end` handlers.  `_mask_to_polygons` converts each predicted boolean
mask into simplified polygon outlines.

External collaborators (OpenCV's `findContours` / `approxPolyDP`, the SAM
predictor, PIL image decoding) are modelled as parameters of the embedded
functions; everything the repository's own code computes (morphology,
area filtering, vertex-count filtering, sorting, prompt normalization,
session bookkeeping, password rotation) is embedded concretely.
-/

namespace Backend

/-- A point in the plane with rational coordinates.  Contour points produced
by `cv2.findContours` are integer pixel coordinates; the handler converts
them to floats (`astype(float)`), all of whose arithmetic here is exact. -/
abbrev Pt : Type := ℚ × ℚ

/-- A contour / polygon: the ordered list of its vertices. -/
abbrev Contour : Type := List Pt

/-- The edges of a closed polygon: each vertex paired with its cyclic
successor. -/
def closedEdges (c : Contour) : List (Pt × Pt) := c.zip (c.rotate 1)

/-- The shoelace sum of a closed contour: twice its signed enclosed area. -/
def shoelace (c : Contour) : ℚ :=
  (closedEdges c).foldr (fun e acc => (e.1.1 * e.2.2 - e.2.1 * e.1.2) + acc) 0

/-- `cv2.contourArea`: the absolute enclosed area of a closed contour,
computed by the shoelace formula (half the absolute shoelace sum). -/
def contourArea (c : Contour) : ℚ := |shoelace c| / 2

/-- A single-channel uint8 raster (a numpy array of shape `(h, w)`),
indexed as row `y`, column `x`.  The pipeline only ever stores 0 or 255. -/
structure GridU8 where
  w : Nat
  h : Nat
  val : Nat → Nat → Nat

/-- A boolean pixel mask, as returned by the SAM predictor. -/
structure MaskGrid where
  w : Nat
  h : Nat
  val : Nat → Nat → Bool

/-- `mask.astype(np.uint8) * 255`: the boolean mask as a 0/255 uint8 image. -/
def maskToU8 (m : MaskGrid) : GridU8 :=
  ⟨m.w, m.h, fun y x => if m.val y x then 255 else 0⟩

/-- The 3×3 structuring neighbourhood `np.ones((3, 3), np.uint8)`. -/
def offsets3x3 : List (Int × Int) :=
  [(-1, -1), (-1, 0), (-1, 1), (0, -1), (0, 0), (0, 1), (1, -1), (1, 0), (1, 1)]

/-- Read pixel `(y, x)` of a grid, substituting the border value `pad`
outside the image bounds. -/
def sample (g : GridU8) (y x : Int) (pad : Nat) : Nat :=
  if 0 ≤ y ∧ y < (g.h : Int) ∧ 0 ≤ x ∧ x < (g.w : Int) then g.val y.toNat x.toNat else pad

/-- Erosion with the 3×3 all-ones kernel: the minimum of the neighbourhood,
with out-of-bounds pixels read as the maximal value (OpenCV's default
border for erosion), so border pixels are not eroded by the frame. -/
def erode3 (g : GridU8) : GridU8 :=
  ⟨g.w, g.h, fun y x =>
    (offsets3x3.map (fun d => sample g ((y : Int) + d.1) ((x : Int) + d.2) 255)).foldr min 255⟩

/-- Dilation with the 3×3 all-ones kernel: the maximum of the neighbourhood,
with out-of-bounds pixels read as 0. -/
def dilate3 (g : GridU8) : GridU8 :=
  ⟨g.w, g.h, fun y x =>
    (offsets3x3.map (fun d => sample g ((y : Int) + d.1) ((x : Int) + d.2) 0)).foldr max 0⟩

/-- `cv2.morphologyEx(mask_u8, cv2.MORPH_OPEN, kernel)` with the 3×3 all-ones
kernel: an erosion followed by a dilation. -/
def morphOpen3 (g : GridU8) : GridU8 := dilate3 (erode3 g)

/-- `_mask_to_polygons(mask, simplify_eps, min_area_px)`.

`fc` models `cv2.findContours(·, cv2.RETR_EXTERNAL, cv2.CHAIN_APPROX_SIMPLE)`
(an external OpenCV routine) and `approx` models
`cv2.approxPolyDP(·, epsilon, closed=True)`; both are passed as parameters.
The repository's own steps are embedded concretely: the 0/255 conversion,
the 3×3 morphological opening, the area filter (applied to each raw
contour), the simplification call guarded by `simplify_eps > 0`, the
`len(pts) >= 3` filter, and the final stable sort by `cv2.contourArea`
of each returned polygon, descending. -/
def mask_to_polygons (fc : GridU8 → List Contour) (approx : ℚ → Contour → Contour)
    (mask : MaskGrid) (simplify_eps : ℚ) (min_area_px : ℚ) : List Contour :=
  let mask_u8 := maskToU8 mask
  let opened := morphOpen3 mask_u8
  let contours := fc opened
  let polys := contours.filterMap (fun cnt =>
    if contourArea cnt < min_area_px then none
    else
      let cnt1 := if simplify_eps > 0 then approx simplify_eps cnt else cnt
      if cnt1.length ≥ 3 then some cnt1 else none)
  polys.mergeSort (fun a b => decide (contourArea b ≤ contourArea a))

/-- An HTTP error raised by a handler (`HTTPException(status_code, detail)`). -/
structure HTTPError where
  status : Nat
  detail : String
  deriving DecidableEq

/-- One cached session: `{"predictor": ..., "image_size": ..., "image_url": ...}`.
The predictor (a `SamPredictor` holding the image embedding) is opaque to
this code, so its type `P` is a parameter. -/
structure Session (P : Type) where
  predictor : P
  image_size : Nat × Nat
  image_url : String
  deriving DecidableEq

/-- The global `_sessions` dictionary, as an association list with unique
keys (lookup finds the first, insertion replaces, deletion removes). -/
abbrev Store (P : Type) := List (String × Session P)

/-- `_sessions[session_id] = {...}`: dictionary assignment. -/
def storeInsert {P : Type} (st : Store P) (sid : String) (s : Session P) : Store P :=
  (sid, s) :: st.filter (fun e => e.1 != sid)

/-- The `SegmentRequest` pydantic model. -/
structure SegmentRequest where
  session_id : String
  points : Option (List (List ℚ))
  point_labels : Option (List Int)
  box : Option (List ℚ)
  multimask : Bool
  deriving DecidableEq

/-- The argument bundle the handler passes to `predictor.predict`. -/
structure PromptInput where
  point_coords : Option (List (List ℚ))
  point_labels : Option (List Int)
  box : Option (List ℚ)
  multimask_output : Bool
  deriving DecidableEq

/-- One entry of the `masks` field of a segment response. -/
structure MaskEntry where
  score : ℚ
  polygons : List Contour
  deriving DecidableEq

/-- The response of a successful `POST /segment`. -/
structure SegmentResponse where
  image_size : Nat × Nat
  num_masks : Nat
  masks : List MaskEntry
  deriving DecidableEq

/-- Lines 182–185 of `segment`: the labels actually passed to the predictor
when `points` is truthy.  The supplied `point_labels` are used only when
they are themselves truthy (non-`None` and non-empty) and of the same
length as `points`; otherwise `np.ones(len(points))` is used. -/
def normLabels (pts : List (List ℚ)) (labels : Option (List Int)) : List Int :=
  match labels with
  | some ls => if ls ≠ [] ∧ ls.length = pts.length then ls else List.replicate pts.length 1
  | none => List.replicate pts.length 1

/-- Lines 187–191 of `segment`: the `box` handed to the predictor.  The
length check runs only when `req.box` is truthy (non-`None` and
non-empty); a malformed truthy box raises HTTP 400. -/
def normBox (b : Option (List ℚ)) : Except HTTPError (Option (List ℚ)) :=
  match b with
  | some bx =>
    if bx ≠ [] then
      if bx.length ≠ 4 then .error ⟨400, "box must be [x1,y1,x2,y2]"⟩ else .ok (some bx)
    else .ok none
  | none => .ok none

/-- `POST /segment` (lines 169–215).  `predict` models the external
`SamPredictor.predict` call (returning candidate masks and scores, or
throwing), `fc`/`approx` are the OpenCV parameters of
`mask_to_polygons`.  The handler returns the response or the raised
`HTTPException`, paired with the session store after the call. -/
def segment {P : Type} (predict : P → PromptInput → Except String (List MaskGrid × List ℚ))
    (fc : GridU8 → List Contour) (approx : ℚ → Contour → Contour)
    (st : Store P) (req : SegmentRequest) :
    Except HTTPError SegmentResponse × Store P :=
  match List.lookup req.session_id st with
  | none => (.error ⟨404, "Invalid session_id. Please start a session first."⟩, st)
  | some sess =>
    let point_coords : Option (List (List ℚ)) :=
      match req.points with
      | some ps => if ps ≠ [] then some ps else none
      | none => none
    let point_labels : Option (List Int) :=
      point_coords.map (fun ps => normLabels ps req.point_labels)
    match normBox req.box with
    | .error e => (.error e, st)
    | .ok box_np =>
      match predict sess.predictor ⟨point_coords, point_labels, box_np, req.multimask⟩ with
      | .error msg => (.error ⟨500, "SAM prediction failed: " ++ msg⟩, st)
      | .ok out =>
        let res := (out.1.zip out.2).map
          (fun ms => MaskEntry.mk ms.2 (mask_to_polygons fc approx ms.1 (3/2) 150))
        (.ok ⟨sess.image_size, res.length, res⟩, st)

/-- The decoded raster of an uploaded image: a numpy array of shape
`(h, w, 3)` produced by `_to_np_image` (PIL decoding is external; only
the shape matters to the session handlers). -/
structure Raster where
  h : Nat
  w : Nat

/-- The response of a successful `POST /session/start`. -/
structure StartResponse where
  session_id : String
  image_size : Nat × Nat
  image_url : String

/-- `POST /session/start` (lines 135–166), from the point where the image
has been successfully decoded.  The fresh `uuid4` session id and filename,
and the predictor built by `SamPredictor(sam)` + `set_image`, are supplied
as parameters.  `image_size` is `[shape[1], shape[0]]`, i.e. (width,
height) of the decoded raster. -/
def start_session {P : Type} (st : Store P) (img : Raster) (predictor : P)
    (sid : String) (img_filename : String) : StartResponse × Store P :=
  let sess : Session P := ⟨predictor, (img.w, img.h), "/uploads/" ++ img_filename⟩
  let st2 := storeInsert st sid sess
  (⟨sid, sess.image_size, sess.image_url⟩, st2)

/-- The response of a successful `POST /session/end`. -/
structure EndResponse where
  status : String
  deriving DecidableEq

/-- `POST /session/end` (lines 218–223): delete the session if the id is
present, otherwise raise 404. -/
def end_session {P : Type} (st : Store P) (sid : String) :
    Except HTTPError EndResponse × Store P :=
  if (List.lookup sid st).isSome then
    (.ok ⟨"ended"⟩, st.filter (fun e => e.1 != sid))
  else
    (.error ⟨404, "Invalid session_id"⟩, st)

/-- The fixed rotating password list. -/
def PASSWORDS : List String := ["pass1", "pass2", "pass3", "pass4"]

/-- The response of a successful `POST /auth`. -/
structure AuthResponse where
  ok : Bool
  deriving DecidableEq

/-- `POST /auth` (lines 124–132): compare the supplied password (absent keys
read as `None` via `data.get`) with the password at the current rotation
index; on a match advance the index modulo the list length. -/
def auth (current_index : Fin PASSWORDS.length) (password : Option String) :
    Except HTTPError AuthResponse × Fin PASSWORDS.length :=
  if password = some (PASSWORDS.get current_index) then
    (.ok ⟨true⟩, ⟨(current_index.val + 1) % PASSWORDS.length,
      Nat.mod_lt _ (by decide)⟩)
  else
    (.error ⟨401, "Invalid password"⟩, current_index)

/-- Squared cross product of `b - a` with `p - a`: the square of the
point-to-line distance of `p` from the line through `a` and `b`, scaled by
the squared length of `b - a`. -/
def crossSq (a b p : Pt) : ℚ := ((b.1 - a.1) * (p.2 - a.2) - (b.2 - a.2) * (p.1 - a.1)) ^ 2

/-- Squared length of the segment from `a` to `b`. -/
def segLenSq (a b : Pt) : ℚ := (b.1 - a.1) ^ 2 + (b.2 - a.2) ^ 2

/-- `p` lies within distance `eps` of the line through `a` and `b`
(expressed multiplicatively to stay within exact rational arithmetic). -/
def WithinEpsOfLine (eps : ℚ) (a b p : Pt) : Prop :=
  crossSq a b p ≤ eps ^ 2 * segLenSq a b

instance (eps : ℚ) (a b p : Pt) : Decidable (WithinEpsOfLine eps a b p) :=
  inferInstanceAs (Decidable (_ ≤ _))

/-- Modelled from the spec: the contract of `cv2.approxPolyDP` (an external
OpenCV routine, not repository code), per spec §4.3 step 4 — a
"Douglas-Peucker-style" simplification "whose vertices deviate from the
original contour by no more than `simplify_tolerance` pixels" under "a
closed-contour assumption".  The simplified contour keeps a subsequence of
the original vertices, and every original vertex lies within `eps` of the
line of some edge of the simplified closed polygon (the Douglas-Peucker
acceptance criterion). -/
def SimplifyWithin (eps : ℚ) (c c2 : Contour) : Prop :=
  c2.Sublist c ∧ ∀ p ∈ c, ∃ e ∈ closedEdges c2, WithinEpsOfLine eps e.1 e.2 p

instance (eps : ℚ) (c c2 : Contour) : Decidable (SimplifyWithin eps c c2) := by
  unfold SimplifyWithin
  infer_instance

/-- A predictor stub that always succeeds with no candidate masks. -/
def predictNil : Unit → PromptInput → Except String (List MaskGrid × List ℚ) :=
  fun _ _ => .ok ([], [])

/-- A `findContours` stub that returns no contours. -/
def fcNil : GridU8 → List Contour := fun _ => []

/-- An `approxPolyDP` stub that leaves every contour unchanged. -/
def approxId : ℚ → Contour → Contour := fun _ c => c

/-- A concrete cached session over the trivial predictor type. -/
def sess0 : Session Unit := ⟨(), (5, 5), "/uploads/x.jpg"⟩

/-- A store holding the single session `"s"`. -/
def st1 : Store Unit := [("s", sess0)]

/-- A prompt-free segment request for session `"s"`. -/
def reqPlain : SegmentRequest := ⟨"s", none, none, none, true⟩

/-- A segment request for session `"s"` whose `box` is the empty list. -/
def reqEmptyBox : SegmentRequest := ⟨"s", none, none, some [], true⟩

/-- A segment request for session `"s"` with a 3-element `box`. -/
def reqBox3 : SegmentRequest := ⟨"s", none, none, some [1, 2, 3], true⟩

/-- A segment request for session `"s"` with one point and no labels. -/
def reqOnePoint : SegmentRequest := ⟨"s", some [[1, 2]], none, none, true⟩

/-- An all-false 4×4 mask (used as a dummy input where the contour source
is a constant stub). -/
def maskAny : MaskGrid := ⟨4, 4, fun _ _ => false⟩

/-- A 20×20 square contour of enclosed area 400. -/
def sq20 : Contour := [(0, 0), (20, 0), (20, 20), (0, 20)]

/-- A 30×30 square contour of enclosed area 900. -/
def sq30 : Contour := [(0, 0), (30, 0), (30, 30), (0, 30)]

/-- A `findContours` stub returning the smaller square before the larger. -/
def fcTwoSquares : GridU8 → List Contour := fun _ => [sq20, sq30]

/-- A `findContours` stub returning the single square `sq20`. -/
def fcSq : GridU8 → List Contour := fun _ => [sq20]

/-- A thin five-vertex contour: a 140×1 band with a one-pixel bump at
`(70, 2)`.  Its enclosed area is 210. -/
def cnt0 : Contour := [(0, 0), (140, 0), (140, 1), (70, 2), (0, 1)]

/-- `cnt0` with the bump vertex `(70, 2)` removed: the remaining 140×1
rectangle, of enclosed area 140.  The dropped vertex lies within 1 pixel
of the line of the edge `(140, 1)–(0, 1)`, so this is an `eps = 1.5`
simplification of `cnt0` in the sense of `SimplifyWithin`. -/
def poly0 : Contour := [(0, 0), (140, 0), (140, 1), (0, 1)]

/-- An `approxPolyDP` stub that performs exactly the admissible
simplification `cnt0 ↦ poly0` and leaves every other contour unchanged. -/
def approxDrop : ℚ → Contour → Contour := fun _ c => if c = cnt0 then poly0 else c

/-- A `findContours` stub returning the single contour `cnt0`. -/
def fcCnt0 : GridU8 → List Contour := fun _ => [cnt0]

/-- The rotation index 0, the initial value of `current_index`. -/
def idx0 : Fin PASSWORDS.length := ⟨0, by decide⟩

/-- A decoded raster of height 7 and width 9. -/
def raster97 : Raster := ⟨7, 9⟩

theorem simplifyWithin_self (eps : ℚ) (c : Contour) : SimplifyWithin eps c c := by
  refine ⟨List.Sublist.refl c, fun p hp => ?_⟩
  obtain ⟨i, hi⟩ := List.mem_iff_get.mp hp
  have hlen : i.val < (closedEdges c).length := by
    simp [closedEdges, List.length_zip, List.length_rotate]
  refine ⟨(closedEdges c).get ⟨i.val, hlen⟩, List.get_mem _ _ _, ?_⟩
  have hfst : ((closedEdges c).get ⟨i.val, hlen⟩).1 = p := by
    simp [closedEdges, List.get_eq_getElem, List.getElem_zip, ← hi]
  rw [hfst]
  have h0 : crossSq p ((closedEdges c).get ⟨i.val, hlen⟩).2 p = 0 := by
    simp [crossSq, sub_self]
  unfold WithinEpsOfLine
  rw [h0]
  have h1 : (0 : ℚ) ≤ eps ^ 2 := sq_nonneg eps
  have h2 : (0 : ℚ) ≤ segLenSq p ((closedEdges c).get ⟨i.val, hlen⟩).2 :=
    add_nonneg (sq_nonneg _) (sq_nonneg _)
  exact mul_nonneg h1 h2

theorem sorted_by_area (l : List Contour) :
    List.Sorted (fun a b => contourArea b ≤ contourArea a)
      (l.mergeSort (fun a b => decide (contourArea b ≤ contourArea a))) := by
  have h := @List.sorted_mergeSort Contour (fun a b => decide (contourArea b ≤ contourArea a))
    (fun a b c h1 h2 => by
      rw [decide_eq_true_eq] at *
      exact le_trans h2 h1)
    (fun a b => by
      rcases le_total (contourArea b) (contourArea a) with h | h <;>
        simp [decide_eq_true_eq, h])
    l
  exact h.imp (fun hab => of_decide_eq_true hab)

theorem lookup_filter_ne {P : Type} (st : Store P) (sid : String) :
    List.lookup sid (st.filter (fun e => e.1 != sid)) = none := by
  induction st with
  | nil => rfl
  | cons kv t ih =>
    by_cases h : kv.1 = sid
    · simpa [List.filter, h] using ih
    · have hne : (kv.1 != sid) = true := by simp [h]
      have hne2 : (sid == kv.1) = false := by simp [bne_iff_ne, Ne.symm h]
      simpa [List.filter, hne, List.lookup, hne2] using ih

theorem lookup_storeInsert_self {P : Type} (st : Store P) (sid : String) (s : Session P) :
    List.lookup sid (storeInsert st sid s) = some s := by
  simp [storeInsert, List.lookup]

theorem foldr_min_le_of_mem {l : List Nat} {a : Nat} (h : a ∈ l) (i : Nat) :
    l.foldr min i ≤ a := by
  induction l with
  | nil => cases h
  | cons b t ih =>
    rcases List.mem_cons.mp h with rfl | hmem
    · exact min_le_left _ _
    · exact le_trans (min_le_right _ _) (ih hmem)

theorem foldr_max_eq_zero {l : List Nat} (h : ∀ a ∈ l, a = 0) : l.foldr max 0 = 0 := by
  induction l with
  | nil => rfl
  | cons b t ih =>
    have hb := h b (List.mem_cons_self _ _)
    have ht := ih (fun a ha => h a (List.mem_cons_of_mem _ ha))
    simp [hb, ht]

/-- Claim C7: an `auth` request whose password equals the password at the
current rotation index advances the index by one modulo the list length and
returns `{ok: true}`; any other password fails with HTTP 401 and leaves the
index unchanged. -/
theorem auth_rotation (i : Fin PASSWORDS.length) (password : Option String) :
    (password = some (PASSWORDS.get i) →
      (auth i password).1 = .ok ⟨true⟩ ∧
      ((auth i password).2).val = (i.val + 1) % PASSWORDS.length) ∧
    (password ≠ some (PASSWORDS.get i) →
      auth i password = (.error ⟨401, "Invalid password"⟩, i)) := by
  constructor
  · intro h
    unfold auth
    rw [if_pos h]
    exact ⟨rfl, rfl⟩
  · intro h
    unfold auth
    rw [if_neg h]

/-- Witness for C7: with the rotation at index 0, `"pass1"` authenticates
and advances the index to 1, while `"wrong"` fails with 401 and leaves the
index at 0. -/
theorem auth_rotation_witness :
    ((auth idx0 (some "pass1")).1 = .ok ⟨true⟩ ∧
      ((auth idx0 (some "pass1")).2).val = (idx0.val + 1) % PASSWORDS.length) ∧
    auth idx0 (some "wrong") = (.error ⟨401, "Invalid password"⟩, idx0) :=
  ⟨(auth_rotation idx0 (some "pass1")).1 (by decide),
   (auth_rotation idx0 (some "wrong")).2 (by decide)⟩

/-- Claim C9: a `segment` call — whether it succeeds, or fails with an
unknown session (404), a malformed box (400), or a model failure (500) —
returns the session store unchanged: no entry is added, removed or
replaced. -/
theorem segment_store_frame {P : Type}
    (predict : P → PromptInput → Except String (List MaskGrid × List ℚ))
    (fc : GridU8 → List Contour) (approx : ℚ → Contour → Contour)
    (st : Store P) (req : SegmentRequest) :
    (segment predict fc approx st req).2 = st := by
  cases hlu : List.lookup req.session_id st with
  | none => simp [segment, hlu]
  | some sess =>
    cases hb : normBox req.box with
    | error e => simp [segment, hlu, hb]
    | ok bn =>
      simp only [segment, hlu, hb]
      split <;> rfl

/-- Claim C10: a `segment` request whose `box` is the empty list is treated
exactly as if `box` were absent (the malformed-box length check runs only
for a truthy box, and the predictor is invoked with no box); in particular
such a call can only fail with 404 (unknown session) or 500 (model
failure), never with the malformed-box 400. -/
theorem segment_empty_box_as_absent {P : Type}
    (predict : P → PromptInput → Except String (List MaskGrid × List ℚ))
    (fc : GridU8 → List Contour) (approx : ℚ → Contour → Contour)
    (st : Store P) (req : SegmentRequest) :
    segment predict fc approx st { req with box := some [] } =
      segment predict fc approx st { req with box := none } ∧
    (∀ e, (segment predict fc approx st { req with box := some [] }).1 = .error e →
      e.status = 404 ∨ e.status = 500) := by
  constructor
  · rfl
  · intro e he
    cases hlu : List.lookup req.session_id st with
    | none =>
      simp [segment, hlu] at he
      rw [← he]
      exact Or.inl rfl
    | some sess =>
      simp only [segment, hlu] at he
      simp only [show normBox (some ([] : List ℚ)) = .ok none from rfl] at he
      split at he
      · rename_i msg hp
        simp at he
        rw [← he]
        exact Or.inr rfl
      · simp at he

/-- Witness for C10: on the empty store, a `segment` request with an empty
box fails with status 404 (unknown session), which is permitted by the
404-or-500 disjunction. -/
theorem segment_empty_box_as_absent_witness :
    ((⟨404, "Invalid session_id. Please start a session first."⟩ : HTTPError).status = 404) ∨
    ((⟨404, "Invalid session_id. Please start a session first."⟩ : HTTPError).status = 500) :=
  (segment_empty_box_as_absent predictNil fcNil approxId ([] : Store Unit) reqPlain).2
    ⟨404, "Invalid session_id. Please start a session first."⟩ rfl

/-- Claim C3 (amended): a `segment` request for a known session whose `box`
is supplied as a non-empty list that is not exactly 4 numbers fails with
HTTP 400 (`InvalidPrompt`), and the model prediction is not invoked: the
outcome is the same for every predictor function. -/
theorem segment_malformed_box_400 {P : Type}
    (predict : P → PromptInput → Except String (List MaskGrid × List ℚ))
    (fc : GridU8 → List Contour) (approx : ℚ → Contour → Contour)
    (st : Store P) (req : SegmentRequest) (sess : Session P) (b : List ℚ)
    (hs : List.lookup req.session_id st = some sess)
    (hb : req.box = some b) (hne : b ≠ []) (hlen : b.length ≠ 4) :
    segment predict fc approx st req = (.error ⟨400, "box must be [x1,y1,x2,y2]"⟩, st) := by
  have hnb : normBox req.box = .error ⟨400, "box must be [x1,y1,x2,y2]"⟩ := by
    simp [normBox, hb, hne, hlen]
  simp [segment, hs, hnb]

/-- Witness for C3 (amended): a 3-element box on a live session fails with
400 under a predictor stub. -/
theorem segment_malformed_box_400_witness :
    segment predictNil fcNil approxId st1 reqBox3 =
      (.error ⟨400, "box must be [x1,y1,x2,y2]"⟩, st1) :=
  segment_malformed_box_400 predictNil fcNil approxId st1 reqBox3 sess0 [1, 2, 3]
    (by decide) rfl (by decide) (by decide)

/-- Counterexample to C3 as stated: a `segment` request whose `box` is
supplied as the empty list — a box that is not exactly 4 numbers — does not
fail with HTTP 400: the empty box is falsy, the length check is skipped,
and the call succeeds. -/
theorem segment_malformed_box_400_cex :
    reqEmptyBox.box = some [] ∧ ([] : List ℚ).length ≠ 4 ∧
    (segment predictNil fcNil approxId st1 reqEmptyBox).1 = .ok ⟨(5, 5), 0, []⟩ := by
  refine ⟨rfl, by decide, ?_⟩
  rfl

/-- Claim C4: a `segment` request with non-empty `points` whose
`point_labels` is omitted or of a different length than `points` invokes
prediction with the all-ones label vector of the same length as `points`,
and its outcome equals that of the same request with an explicit all-ones
`point_labels` list. -/
theorem segment_default_labels {P : Type}
    (predict : P → PromptInput → Except String (List MaskGrid × List ℚ))
    (fc : GridU8 → List Contour) (approx : ℚ → Contour → Contour)
    (st : Store P) (req : SegmentRequest) (pts : List (List ℚ))
    (hp : req.points = some pts) (hne : pts ≠ [])
    (hml : req.point_labels = none ∨
      ∃ ls, req.point_labels = some ls ∧ ls.length ≠ pts.length) :
    normLabels pts req.point_labels = List.replicate pts.length 1 ∧
    segment predict fc approx st req =
      segment predict fc approx st
        { req with point_labels := some (List.replicate pts.length 1) } := by
  have h1 : normLabels pts req.point_labels = List.replicate pts.length 1 := by
    rcases hml with h | ⟨ls, hls, hlen⟩
    · rw [h]
      rfl
    · rw [hls]
      simp [normLabels, hlen]
  have h2 : normLabels pts (some (List.replicate pts.length 1)) =
      List.replicate pts.length 1 := by
    simp only [normLabels]
    split <;> rfl
  refine ⟨h1, ?_⟩
  cases hlu : List.lookup req.session_id st with
  | none => simp [segment, hlu]
  | some sess => simp [segment, hlu, hp, hne, h1, h2]

/-- Witness for C4: a one-point request with no labels behaves like the
same request with labels `[1]`. -/
theorem segment_default_labels_witness :
    normLabels [[1, 2]] none = List.replicate (1 : Nat) 1 ∧
    segment predictNil fcNil approxId st1 reqOnePoint =
      segment predictNil fcNil approxId st1
        { reqOnePoint with point_labels := some (List.replicate 1 1) } := by
  have h := segment_default_labels predictNil fcNil approxId st1 reqOnePoint [[1, 2]]
    rfl (by decide) (Or.inl rfl)
  exact h

/-- Claim C5: after a successful `session/end` for an id, a subsequent
`segment` call with that id fails with 404 (`SessionNotFound`), and a
second `session/end` with the same id also fails with 404. -/
theorem end_session_lifecycle {P : Type} (st : Store P) (sid : String)
    (r : EndResponse) (st2 : Store P)
    (h : end_session st sid = (.ok r, st2)) :
    (∀ (predict : P → PromptInput → Except String (List MaskGrid × List ℚ))
      (fc : GridU8 → List Contour) (approx : ℚ → Contour → Contour)
      (req : SegmentRequest), req.session_id = sid →
      segment predict fc approx st2 req =
        (.error ⟨404, "Invalid session_id. Please start a session first."⟩, st2)) ∧
    end_session st2 sid = (.error ⟨404, "Invalid session_id"⟩, st2) := by
  unfold end_session at h
  split at h
  · injection h with h1 h2
    subst h2
    have hl : List.lookup sid (st.filter (fun e => e.1 != sid)) = none :=
      lookup_filter_ne st sid
    constructor
    · intro predict fc approx req hreq
      simp [segment, hreq, hl]
    · simp [end_session, hl]
  · exact absurd h (by simp)

/-- Witness for C5: ending the one-session store removes `"s"`; a segment
call and a second end both fail with 404 on the resulting empty store. -/
theorem end_session_lifecycle_witness :
    segment predictNil fcNil approxId ([] : Store Unit) reqPlain =
      (.error ⟨404, "Invalid session_id. Please start a session first."⟩, []) ∧
    end_session ([] : Store Unit) "s" = (.error ⟨404, "Invalid session_id"⟩, []) := by
  obtain ⟨h1, h2⟩ := end_session_lifecycle st1 "s" ⟨"ended"⟩ [] rfl
  exact ⟨h1 predictNil fcNil approxId reqPlain rfl, h2⟩

/-- Claim C6: for every successfully decoded image, `session/start` reports
`image_size` equal to the decoded raster's (width, height), the stored
session carries that same size, and every `segment` call that finds that
session (in particular every subsequent call for that session, the store
being unchanged by `segment`) reports exactly the same `image_size`. -/
theorem start_session_image_size {P : Type} (st : Store P) (img : Raster) (p : P)
    (sid fname : String) :
    (start_session st img p sid fname).1.image_size = (img.w, img.h) ∧
    List.lookup sid (start_session st img p sid fname).2 =
      some ⟨p, (img.w, img.h), "/uploads/" ++ fname⟩ ∧
    (∀ (st2 : Store P)
      (predict : P → PromptInput → Except String (List MaskGrid × List ℚ))
      (fc : GridU8 → List Contour) (approx : ℚ → Contour → Contour)
      (req : SegmentRequest) (resp : SegmentResponse),
      List.lookup req.session_id st2 = some ⟨p, (img.w, img.h), "/uploads/" ++ fname⟩ →
      (segment predict fc approx st2 req).1 = .ok resp →
      resp.image_size = (img.w, img.h)) := by
  refine ⟨rfl, lookup_storeInsert_self st sid _, ?_⟩
  intro st2 predict fc approx req resp hlu hok
  simp only [segment, hlu] at hok
  split at hok
  · simp at hok
  · split at hok
    · simp at hok
    · simp only [Prod.fst] at hok
      injection hok with h3
      rw [← h3]

/-- Witness for C6: starting a session on a 7×9 (h×w) raster reports size
(9, 7), and a segment call on the resulting store reports (9, 7) again. -/
theorem start_session_image_size_witness :
    (start_session ([] : Store Unit) raster97 () "s" "f.png").1.image_size = (9, 7) ∧
    ((⟨(9, 7), 0, []⟩ : SegmentResponse).image_size = (9, 7)) := by
  obtain ⟨h1, _, h3⟩ := start_session_image_size ([] : Store Unit) raster97 () "s" "f.png"
  refine ⟨h1, ?_⟩
  exact h3 (start_session ([] : Store Unit) raster97 () "s" "f.png").2 predictNil fcNil
    approxId reqPlain ⟨(9, 7), 0, []⟩ rfl rfl

/-- Claim C2: the polygon list returned by the vectorizer is sorted by
enclosed area, descending: `polygons[i].area ≥ polygons[i+1].area` for
every valid index `i` (the polygon lists of a `segment` response are
produced by this function). -/
theorem mask_to_polygons_sorted_desc
    (fc : GridU8 → List Contour) (approx : ℚ → Contour → Contour)
    (mask : MaskGrid) (simplify_eps min_area_px : ℚ) (i : Nat)
    (h : i + 1 < (mask_to_polygons fc approx mask simplify_eps min_area_px).length) :
    contourArea ((mask_to_polygons fc approx mask simplify_eps min_area_px).get
        ⟨i + 1, h⟩) ≤
      contourArea ((mask_to_polygons fc approx mask simplify_eps min_area_px).get
        ⟨i, Nat.lt_of_succ_lt h⟩) := by
  have hs := sorted_by_area ((fc (morphOpen3 (maskToU8 mask))).filterMap (fun cnt =>
    if contourArea cnt < min_area_px then none
    else
      let cnt1 := if simplify_eps > 0 then approx simplify_eps cnt else cnt
      if cnt1.length ≥ 3 then some cnt1 else none))
  exact hs.rel_get_of_lt (Fin.mk_lt_mk.mpr (Nat.lt_succ_self i))

/-- Witness for C2: on two square contours listed smaller-first, the
returned list is sorted larger-first. -/
theorem mask_to_polygons_sorted_desc_witness :
    ∃ h : 0 + 1 < (mask_to_polygons fcTwoSquares approxId maskAny (3/2) 150).length,
      contourArea ((mask_to_polygons fcTwoSquares approxId maskAny (3/2) 150).get
          ⟨0 + 1, h⟩) ≤
        contourArea ((mask_to_polygons fcTwoSquares approxId maskAny (3/2) 150).get
          ⟨0, Nat.lt_of_succ_lt h⟩) := by
  have h : 0 + 1 < (mask_to_polygons fcTwoSquares approxId maskAny (3/2) 150).length := by
    with_unfolding_all decide
  exact ⟨h, mask_to_polygons_sorted_desc fcTwoSquares approxId maskAny (3/2) 150 0 h⟩

/-- Claim C8: an all-false mask yields an empty polygon list without any
error: the opened image is still all-zero, `findContours` (which only
traces nonzero pixels) finds nothing, and the pipeline returns `[]`. -/
theorem mask_to_polygons_empty_mask
    (fc : GridU8 → List Contour) (approx : ℚ → Contour → Contour)
    (mask : MaskGrid) (simplify_eps min_area_px : ℚ)
    (hfc : ∀ g : GridU8, (∀ y x, y < g.h → x < g.w → g.val y x = 0) → fc g = [])
    (hmask : ∀ y x, mask.val y x = false) :
    mask_to_polygons fc approx mask simplify_eps min_area_px = [] := by
  have her : ∀ y x, y < mask.h → x < mask.w → (erode3 (maskToU8 mask)).val y x = 0 := by
    intro y x hy hx
    have h00 : ((0, 0) : Int × Int) ∈ offsets3x3 := by decide
    have hsamp : sample (maskToU8 mask) (y : Int) (x : Int) 255 = 0 := by
      simp [sample, maskToU8, hmask, hy, hx]
    have hmem : (0 : Nat) ∈ offsets3x3.map (fun d =>
        sample (maskToU8 mask) ((y : Int) + d.1) ((x : Int) + d.2) 255) := by
      have := List.mem_map_of_mem (fun d : Int × Int =>
        sample (maskToU8 mask) ((y : Int) + d.1) ((x : Int) + d.2) 255) h00
      simpa [hsamp] using this
    exact Nat.le_zero.mp (foldr_min_le_of_mem hmem 255)
  have hop : ∀ y x, y < mask.h → x < mask.w →
      (morphOpen3 (maskToU8 mask)).val y x = 0 := by
    intro y x hy hx
    apply foldr_max_eq_zero
    intro a ha
    obtain ⟨d, hd, hsa⟩ := List.mem_map.mp ha
    rw [← hsa]
    unfold sample
    split
    · rename_i hcond
      obtain ⟨h1, h2, h3, h4⟩ := hcond
      have hh : (erode3 (maskToU8 mask)).h = mask.h := rfl
      have hw : (erode3 (maskToU8 mask)).w = mask.w := rfl
      rw [hh] at h2
      rw [hw] at h4
      apply her
      · omega
      · omega
    · rfl
  have hcontours : fc (morphOpen3 (maskToU8 mask)) = [] := hfc _ hop
  simp [mask_to_polygons, hcontours]

/-- Witness for C8: a concrete all-false 3×3 mask with a stub contour
source yields `[]`. -/
theorem mask_to_polygons_empty_mask_witness :
    mask_to_polygons fcNil approxId ⟨3, 3, fun _ _ => false⟩ (3/2) 150 = [] :=
  mask_to_polygons_empty_mask fcNil approxId ⟨3, 3, fun _ _ => false⟩ (3/2) 150
    (fun _ _ => rfl) (fun _ _ => rfl)

/-- Claim C1 (amended): every polygon returned by the vectorizer at
`simplify_eps = 1.5`, `min_area_px = 150` has at least 3 vertices, and is
the simplification of an extracted contour whose enclosed area is at least
150.  The area filter runs on the raw contour before simplification, so
the bound applies to the pre-simplification contour, not to the returned
polygon itself. -/
theorem mask_to_polygons_filters
    (fc : GridU8 → List Contour) (approx : ℚ → Contour → Contour)
    (mask : MaskGrid) (poly : Contour)
    (h : poly ∈ mask_to_polygons fc approx mask (3/2) 150) :
    3 ≤ poly.length ∧
    ∃ cnt ∈ fc (morphOpen3 (maskToU8 mask)),
      150 ≤ contourArea cnt ∧ poly = approx (3/2) cnt := by
  have h2 : poly ∈ (fc (morphOpen3 (maskToU8 mask))).filterMap (fun cnt =>
      if contourArea cnt < 150 then none
      else
        let cnt1 := if (3/2 : ℚ) > 0 then approx (3/2) cnt else cnt
        if cnt1.length ≥ 3 then some cnt1 else none) := List.mem_mergeSort.mp h
  obtain ⟨cnt, hcnt, hf⟩ := List.mem_filterMap.mp h2
  by_cases ha : contourArea cnt < 150
  · rw [if_pos ha] at hf
    cases hf
  · rw [if_neg ha] at hf
    have hpos : ((3 : ℚ)/2) > 0 := by norm_num
    have hf2 : (if (approx (3/2) cnt).length ≥ 3
        then some (approx (3/2) cnt) else none) = some poly := by
      simpa [hpos] using hf
    by_cases hlen : (approx (3/2) cnt).length ≥ 3
    · rw [if_pos hlen] at hf2
      injection hf2 with hf3
      refine ⟨?_, cnt, hcnt, not_lt.mp ha, hf3.symm⟩
      rw [← hf3]
      exact hlen
    · rw [if_neg hlen] at hf2
      cases hf2

/-- Witness for C1 (amended): the square `sq20` (area 400) survives the
pipeline unchanged and satisfies both conclusions. -/
theorem mask_to_polygons_filters_witness :
    3 ≤ sq20.length ∧
    ∃ cnt ∈ fcSq (morphOpen3 (maskToU8 maskAny)),
      150 ≤ contourArea cnt ∧ sq20 = approxId (3/2) cnt :=
  mask_to_polygons_filters fcSq approxId maskAny sq20 (by with_unfolding_all decide)

/-- Counterexample to C1 as stated: under an admissible `eps = 1.5`
simplification (it satisfies the spec's Douglas-Peucker deviation
contract `SimplifyWithin`), the vectorizer returns the polygon `poly0` of
enclosed area 140 < 150: the contour `cnt0` (area 210) passes the area
filter before simplification, and simplification then removes its bump
vertex.  So not every returned polygon has area at least `min_area_px`. -/
theorem mask_to_polygons_min_area_cex :
    ¬ (∀ (fc : GridU8 → List Contour) (approx : ℚ → Contour → Contour),
        (∀ c, SimplifyWithin (3/2) c (approx (3/2) c)) →
        ∀ (mask : MaskGrid) (poly : Contour),
          poly ∈ mask_to_polygons fc approx mask (3/2) 150 →
          150 ≤ contourArea poly ∧ 3 ≤ poly.length) := by
  intro hclaim
  have happrox : ∀ c, SimplifyWithin (3/2) c (approxDrop (3/2) c) := by
    intro c
    by_cases hc : c = cnt0
    · subst hc
      have hd : approxDrop (3/2) cnt0 = poly0 := by simp [approxDrop]
      rw [hd]
      with_unfolding_all decide
    · have hd : approxDrop (3/2) c = c := by simp [approxDrop, hc]
      rw [hd]
      exact simplifyWithin_self _ _
  have hmem : poly0 ∈ mask_to_polygons fcCnt0 approxDrop maskAny (3/2) 150 := by
    with_unfolding_all decide
  have hlt : ¬ (150 ≤ contourArea poly0) := by with_unfolding_all decide
  exact hlt (hclaim fcCnt0 approxDrop happrox maskAny poly0 hmem).1

end Backend
